import Mathlib

/-!
# Verification of the `optimizer` asset pipeline

Shallow embedding of the two tree walkers of the repository:

* `src/unnamed/part_000` — the video-capable walker (`optimizeAndBlurImages`,
  `processVideo`, `copyFolderContentsDirectly`), embedded in namespace
  `Optimizer`;
* `src/optimize.js` — the image-only walker, embedded in namespace
  `Optimizer.OptimizeJs`.  Its four policy predicates and its image/copy
  branches are verbatim duplicates of the ones in `part_000` except where
  noted (excluded-folder handling, the resize condition, and the absence of
  the video class), so the shared predicate definitions live in `Optimizer`.

The configuration object mirrors `config.json`'s shape.  The external media
transform service (`sharp`, `ffmpeg`) only reports success or failure and
probe metadata to the core; each source file carries that outcome as data.
The walkers are embedded as pure functions from a directory tree to the list
of filesystem effects they perform, in program order.
-/

namespace Optimizer

/-- An include/exclude policy pair (JS `{include: [...], exclude: [...]}`).
`include` is a Lean keyword, hence the field names `incl` / `excl`. -/
structure Policy where
  incl : List String
  excl : List String
deriving Repr, DecidableEq

/-- JS `config.extensions`: the three extension classes plus the excluded
extensions (`extensions.exclude`). -/
structure Extensions where
  processable : List String
  videoProcessable : List String
  copyOnly : List String
  excl : List String
deriving Repr, DecidableEq

/-- JS `config.image.quality`. -/
structure ImageQuality where
  jpeg : Nat
  png : Nat
  webp : Nat
deriving Repr, DecidableEq

/-- JS `config.image`. -/
structure ImageCfg where
  enableResize : Bool
  maxWidth : Nat
  quality : ImageQuality
deriving Repr, DecidableEq

/-- JS `config.video.quality`. -/
structure VideoQuality where
  crf : Nat
  preset : String
  bitrate : Option Nat
deriving Repr, DecidableEq

/-- JS `config.video.formats`. -/
structure VideoFormats where
  outputFormat : String
  codec : String
deriving Repr, DecidableEq

/-- JS `config.video`. -/
structure VideoCfg where
  enableProcessing : Bool
  enableResize : Bool
  preserveFormat : Bool
  maxWidth : Nat
  maxHeight : Nat
  quality : VideoQuality
  formats : VideoFormats
deriving Repr, DecidableEq

/-- JS `config.blur`. -/
structure BlurCfg where
  strength : Nat
  folders : Policy
  files : Policy
deriving Repr, DecidableEq

/-- The whole `config.json` object. -/
structure Config where
  folders : Policy
  files : Policy
  extensions : Extensions
  image : ImageCfg
  video : VideoCfg
  blur : BlurCfg
deriving Repr, DecidableEq

/-! ## Path primitives

Models of the Node `path` functions the walkers use.  Node's `path.basename`
returns the final `/`-separated segment and `path.extname` the suffix of that
final segment from its last dot (empty when the segment has no dot or only a
leading dot).  The walkers never pass the dot-only segments `.` and `..`
(hidden entries are skipped before any predicate runs), so those Node special
cases are not modelled. -/

/-- JS `String.prototype.toLowerCase` as used on extensions (ASCII): lower
each character.  (Core `String.toLower` does not reduce in the kernel, so the
map is written out over the character list.) -/
def lowerChar (c : Char) : Char :=
  if 65 ≤ c.toNat ∧ c.toNat ≤ 90 then Char.ofNat (c.toNat + 32) else c

/-- Lowercase a string character by character. -/
def toLowerAscii (s : String) : String :=
  String.mk (s.toList.map lowerChar)

/-- JS `name.startsWith('.')`: the first character is a dot. -/
def startsWithDot (s : String) : Bool :=
  match s.toList with
  | [] => false
  | c :: _ => c = '.'

/-- Characters of the final path segment (after the last `/`). -/
def afterLastSlash : List Char → List Char
  | [] => []
  | c :: rest =>
    if rest.contains '/' then afterLastSlash rest
    else if c = '/' then rest
    else c :: rest

/-- Characters before the last `/` (used only on paths containing `/`). -/
def beforeLastSlash : List Char → List Char
  | [] => []
  | c :: rest =>
    if rest.contains '/' then c :: beforeLastSlash rest
    else []

/-- Model of Node `path.basename`. -/
def basename (p : String) : String :=
  String.mk (afterLastSlash p.toList)

/-- Model of Node `path.dirname`. -/
def dirname (p : String) : String :=
  if p.toList.contains '/' then String.mk (beforeLastSlash p.toList) else "."

/-- Index of the last `.` in a character list, if any. -/
def lastDotIdx : List Char → Option Nat
  | [] => none
  | c :: rest =>
    match lastDotIdx rest with
    | some i => some (i + 1)
    | none => if c = '.' then some 0 else none

/-- Model of Node `path.extname`: the extension of the final path segment,
from its last `.` to the end; empty when the segment has no dot or only a
leading dot.  (Node's scan stops at the last `/`, i.e. it only ever examines
the final segment, which is what computing on `basename` captures.) -/
def extname (p : String) : String :=
  let b := (basename p).toList
  match lastDotIdx b with
  | none => ""
  | some 0 => ""
  | some i => String.mk (b.drop i)

/-! ## The four policy predicates (Rule Resolver)

These four functions appear verbatim in both `src/optimize.js` (lines 24-87)
and `src/unnamed/part_000` (lines 25-88).  The JS guard
`config.X.include && config.X.include.length > 0` only protects against an
absent key; here the lists are total, so `length > 0` alone is the guard. -/

/-- JS `shouldProcessFolder` (optimize.js 24-34, part_000 25-35). -/
def shouldProcessFolder (config : Config) (folderPath : String) : Bool :=
  let folderName := basename folderPath
  if config.folders.incl.length > 0 then
    config.folders.incl.contains folderName
  else
    !(config.folders.excl.contains folderName)

/-- JS `shouldProcessFile` (optimize.js 37-57, part_000 38-58). -/
def shouldProcessFile (config : Config) (filePath : String) : Bool :=
  let fileName := basename filePath
  let fileExt := toLowerAscii (extname filePath)
  if config.files.excl.contains fileName then
    false
  else if config.extensions.excl.contains fileExt then
    false
  else if config.files.incl.length > 0 then
    config.files.incl.contains fileName
  else
    true

/-- JS `shouldBlurFolder` (optimize.js 60-70, part_000 61-71). -/
def shouldBlurFolder (config : Config) (folderPath : String) : Bool :=
  let folderName := basename folderPath
  if config.blur.folders.incl.length > 0 then
    config.blur.folders.incl.contains folderName
  else
    !(config.blur.folders.excl.contains folderName)

/-- JS `shouldBlurFile` (optimize.js 72-87, part_000 74-88). -/
def shouldBlurFile (config : Config) (filePath : String) : Bool :=
  let fileName := basename filePath
  if config.blur.files.excl.contains fileName then
    false
  else if config.blur.files.incl.length > 0 then
    config.blur.files.incl.contains fileName
  else
    true

/-- The four handling classes of the File Classifier. -/
inductive FileType
  | processable
  | video
  | copyOnly
  | other
deriving Repr, DecidableEq

/-- JS `getFileType` of `part_000` (lines 91-103): extension classes checked
in priority order processable, videoProcessable, copyOnly; unmatched is
`other`. -/
def getFileType (config : Config) (filePath : String) : FileType :=
  let fileExt := toLowerAscii (extname filePath)
  if config.extensions.processable.contains fileExt then
    FileType.processable
  else if config.extensions.videoProcessable.contains fileExt then
    FileType.video
  else if config.extensions.copyOnly.contains fileExt then
    FileType.copyOnly
  else
    FileType.other

/-! ## Source trees and observable effects -/

/-- Per-file source data.  `content` is the raw byte sequence; `width` and
`height` are what a successful probe reports.  The media transform service is
an external collaborator, so its outcome for this file is fixed as data:
`probeOk` (`ffprobe` succeeds), `hasVideoStream` (the probe finds a video
stream), `transcodeOk` (the `ffmpeg` run completes), `imageOk` (the whole
`sharp` metadata/transform/encode chain completes). -/
structure SrcFile where
  content : List Nat
  width : Nat
  height : Nat
  probeOk : Bool
  hasVideoStream : Bool
  transcodeOk : Bool
  imageOk : Bool
deriving Repr, DecidableEq

/-- A source directory tree: named files and named subdirectories. -/
inductive FsEntry
  | file (name : String) (f : SrcFile)
  | dir (name : String) (entries : List FsEntry)
deriving Repr

/-- One observable filesystem effect of a walk, in program order:
directory creation, a byte-for-byte copy carrying the copied bytes, an image
transform write (with the resize width, the blur sigma when blur is applied,
and the encoder settings), a video transcode write (with codec, optional
target size, CRF and optional bitrate), or a logged image-transform error
producing no file. -/
inductive Event
  | mkdirp (path : String)
  | copyFile (src : String) (dst : String) (content : List Nat)
  | optimizeImage (dst : String) (resizeTo : Option Nat) (blur : Option Nat)
      (q : ImageQuality)
  | transcode (dst : String) (codec : String) (size : Option (Nat × Nat))
      (crf : Nat) (bitrate : Option Nat)
  | imageError (src : String)
deriving Repr, DecidableEq

/-- The blur parameter an event applies: only an image transform can blur. -/
def Event.blurOf : Event → Option Nat
  | .optimizeImage _ _ b _ => b
  | _ => none

/-- The resize an image transform applies (`none` for every other event). -/
def Event.imageResizeOf : Event → Option Nat
  | .optimizeImage _ r _ _ => r
  | _ => none

/-- The target size a transcode applies (`none` for every other event). -/
def Event.videoSizeOf : Event → Option (Nat × Nat)
  | .transcode _ _ s _ _ => s
  | _ => none

/-- Raw events: directory creation and byte-identical copies only — no
resize, no recompression, no blur, no transcode. -/
def Event.isRaw : Event → Bool
  | .mkdirp _ => true
  | .copyFile _ _ _ => true
  | _ => false

/-- The basename of `p` with its `extname` suffix removed
(JS `path.basename(p, path.extname(p))`). -/
def basenameWithoutExt (p : String) : String :=
  let b := basename p
  let e := extname p
  String.mk (b.toList.take (b.length - e.length))

/-- `part_000` `processVideo` (lines 106-224) as the list of effects it
performs.  `video.enableProcessing = false`, a probe failure, a missing video
stream, and a transcode failure all yield a byte-identical copy of the input
at the nominal `outputPath`; a successful run yields one transcode write at
`outputFile` (which differs from `outputPath` only when `preserveFormat` is
false, where the extension is replaced by the configured output format). -/
def processVideo (config : Config) (inputPath outputPath : String)
    (f : SrcFile) : List Event :=
  if !config.video.enableProcessing then
    [Event.copyFile inputPath outputPath f.content]
  else if !f.probeOk then
    [Event.copyFile inputPath outputPath f.content]
  else if !f.hasVideoStream then
    [Event.copyFile inputPath outputPath f.content]
  else
    let inputFormat := toLowerAscii (extname inputPath)
    let codec :=
      if config.video.preserveFormat then
        if inputFormat = ".webm" then "libvpx-vp9"
        else if inputFormat = ".mp4" then "libx264"
        else config.video.formats.codec
      else config.video.formats.codec
    let outputFile :=
      if config.video.preserveFormat then outputPath
      else dirname outputPath ++ "/" ++ basenameWithoutExt outputPath ++ "."
        ++ config.video.formats.outputFormat
    let size :=
      if config.video.enableResize ∧
          (config.video.maxWidth < f.width ∨ config.video.maxHeight < f.height)
      then some (config.video.maxWidth, config.video.maxHeight)
      else none
    let bitrate :=
      if config.video.quality.bitrate.isSome && (codec != "libvpx-vp9") then
        config.video.quality.bitrate
      else none
    if f.transcodeOk then
      [Event.transcode outputFile codec size config.video.quality.crf bitrate]
    else
      [Event.copyFile inputPath outputPath f.content]

mutual

/-- One iteration of `part_000` `copyFolderContentsDirectly` (lines 362-383):
a hidden entry is skipped; a file is copied byte-for-byte; a subdirectory is
created and copied recursively — no classification, no policy check, no
transform, ever. -/
def copyEntryDirectly (source target : String) : FsEntry → List Event
  | .file name f =>
    if startsWithDot name then []
    else
      [Event.copyFile (source ++ "/" ++ name) (target ++ "/" ++ name)
        f.content]
  | .dir name sub =>
    if startsWithDot name then []
    else
      Event.mkdirp (target ++ "/" ++ name) ::
        copyFolderContentsDirectly (source ++ "/" ++ name)
          (target ++ "/" ++ name) sub

/-- `part_000` `copyFolderContentsDirectly` over a whole entry list. -/
def copyFolderContentsDirectly (source target : String) :
    List FsEntry → List Event
  | [] => []
  | e :: rest =>
    copyEntryDirectly source target e ++
      copyFolderContentsDirectly source target rest

end

mutual

/-- The body of the `part_000` walker `optimizeAndBlurImages`
(lines 265-359) for a single directory entry.

Directory: `mkdirp` the mirrored output directory; when
`shouldProcessFolder` is false, raw-copy the whole subtree and stop there;
otherwise recurse with the blur flag
`applyBlur && parentBlurAllowed && shouldBlurFolder`.

File: hidden or not `shouldProcessFile` → nothing; processable → one image
transform write (resize exactly when `image.enableResize` and the probed
width is ≥ `image.maxWidth`; blur exactly when
`applyBlur && parentBlurAllowed && shouldBlurFile`) or a logged error with no
write when the transform fails; video → `processVideo`; copyOnly and other →
a byte-identical copy. -/
def walkEntry (config : Config) (source target : String)
    (applyBlur parentBlurAllowed : Bool) : FsEntry → List Event
  | .file name f =>
    if startsWithDot name then []
    else
      let filePath := source ++ "/" ++ name
      let outputFilePath := target ++ "/" ++ name
      if !shouldProcessFile config filePath then []
      else
        match getFileType config filePath with
        | .processable =>
          let fileAllowsBlur := shouldBlurFile config filePath
          let shouldBlurThisFile :=
            applyBlur && parentBlurAllowed && fileAllowsBlur
          if f.imageOk then
            [Event.optimizeImage outputFilePath
              (if config.image.enableResize ∧ config.image.maxWidth ≤ f.width
               then some config.image.maxWidth else none)
              (if shouldBlurThisFile then some config.blur.strength else none)
              config.image.quality]
          else
            [Event.imageError filePath]
        | .video => processVideo config filePath outputFilePath f
        | .copyOnly => [Event.copyFile filePath outputFilePath f.content]
        | .other => [Event.copyFile filePath outputFilePath f.content]
  | .dir name sub =>
    if startsWithDot name then []
    else
      let filePath := source ++ "/" ++ name
      let outputFilePath := target ++ "/" ++ name
      if !shouldProcessFolder config filePath then
        Event.mkdirp outputFilePath ::
          copyFolderContentsDirectly filePath outputFilePath sub
      else
        let folderAllowsBlur := shouldBlurFolder config filePath
        let blurForThisFolder :=
          applyBlur && parentBlurAllowed && folderAllowsBlur
        Event.mkdirp outputFilePath ::
          walk config filePath outputFilePath applyBlur blurForThisFolder sub

/-- `part_000` `optimizeAndBlurImages` over a directory's entry list, in
entry order (the JS `for (const file of files)` loop). -/
def walk (config : Config) (source target : String)
    (applyBlur parentBlurAllowed : Bool) : List FsEntry → List Event
  | [] => []
  | e :: rest =>
    walkEntry config source target applyBlur parentBlurAllowed e ++
      walk config source target applyBlur parentBlurAllowed rest

end

namespace OptimizeJs

/-- JS `getFileType` of `src/optimize.js` (lines 89-100): no video class. -/
def getFileType (config : Config) (filePath : String) : FileType :=
  let fileExt := toLowerAscii (extname filePath)
  if config.extensions.processable.contains fileExt then
    FileType.processable
  else if config.extensions.copyOnly.contains fileExt then
    FileType.copyOnly
  else
    FileType.other

mutual

/-- The body of the `src/optimize.js` walker `optimizeAndBlurImages`
(lines 141-224) for a single directory entry.  It differs from the
`part_000` walker in three places: a directory failing `shouldProcessFolder`
is skipped outright (no `mkdirp`, no copy — lines 156-161); the image resize
condition is `metadata.width >= config.image.maxWidth` with no
`enableResize` guard (line 197); and there is no video class, so its
`getFileType` never yields `.video` (that branch is unreachable). -/
def walkEntry (config : Config) (source target : String)
    (applyBlur parentBlurAllowed : Bool) : FsEntry → List Event
  | .file name f =>
    if startsWithDot name then []
    else
      let filePath := source ++ "/" ++ name
      let outputFilePath := target ++ "/" ++ name
      if !shouldProcessFile config filePath then []
      else
        match OptimizeJs.getFileType config filePath with
        | .processable =>
          let fileAllowsBlur := shouldBlurFile config filePath
          let shouldBlurThisFile :=
            applyBlur && parentBlurAllowed && fileAllowsBlur
          if f.imageOk then
            [Event.optimizeImage outputFilePath
              (if config.image.maxWidth ≤ f.width
               then some config.image.maxWidth else none)
              (if shouldBlurThisFile then some config.blur.strength else none)
              config.image.quality]
          else
            [Event.imageError filePath]
        | .video => []
        | .copyOnly => [Event.copyFile filePath outputFilePath f.content]
        | .other => [Event.copyFile filePath outputFilePath f.content]
  | .dir name sub =>
    if startsWithDot name then []
    else
      let filePath := source ++ "/" ++ name
      let outputFilePath := target ++ "/" ++ name
      if !shouldProcessFolder config filePath then []
      else
        let folderAllowsBlur := shouldBlurFolder config filePath
        let blurForThisFolder :=
          applyBlur && parentBlurAllowed && folderAllowsBlur
        Event.mkdirp outputFilePath ::
          OptimizeJs.walk config filePath outputFilePath applyBlur
            blurForThisFolder sub

/-- `src/optimize.js` `optimizeAndBlurImages` over an entry list. -/
def walk (config : Config) (source target : String)
    (applyBlur parentBlurAllowed : Bool) : List FsEntry → List Event
  | [] => []
  | e :: rest =>
    OptimizeJs.walkEntry config source target applyBlur parentBlurAllowed e ++
      OptimizeJs.walk config source target applyBlur parentBlurAllowed rest

end

end OptimizeJs

/-- Events that write an output file (a copy, an image transform, or a
transcode); `mkdirp` and a logged image error write no file. -/
def Event.writesFile : Event → Bool
  | .mkdirp _ => false
  | .imageError _ => false
  | _ => true

/-- `FileAt entries rel f`: a non-hidden file with data `f` sits at the
`/`-prefixed relative path `rel` inside the tree `entries`, with every
directory on the way down also non-hidden. -/
inductive FileAt : List FsEntry → String → SrcFile → Prop
  | here {entries : List FsEntry} {name : String} {f : SrcFile} :
      FsEntry.file name f ∈ entries → startsWithDot name = false →
      FileAt entries ("/" ++ name) f
  | there {entries : List FsEntry} {name rel : String} {sub : List FsEntry}
      {f : SrcFile} :
      FsEntry.dir name sub ∈ entries → startsWithDot name = false →
      FileAt sub rel f →
      FileAt entries ("/" ++ name ++ rel) f

/-- A concrete configuration for the witnesses, shaped like the README's
example `config.json`: folder `raw` excluded from processing and folder
`team` excluded from blur. -/
def democfg : Config :=
  { folders := { incl := [], excl := ["raw"] }
    files := { incl := [], excl := [] }
    extensions :=
      { processable := [".jpg", ".jpeg", ".png", ".gif", ".webp"]
        videoProcessable := [".mp4", ".webm"]
        copyOnly := [".svg"]
        excl := [".tmp"] }
    image := { enableResize := true, maxWidth := 700
               quality := { jpeg := 80, png := 9, webp := 80 } }
    video := { enableProcessing := true, enableResize := true
               preserveFormat := true, maxWidth := 1280, maxHeight := 720
               quality := { crf := 30, preset := "fast", bitrate := some 1000 }
               formats := { outputFormat := "mp4", codec := "libx264" } }
    blur := { strength := 5
              folders := { incl := [], excl := ["team"] }
              files := { incl := [], excl := [] } } }

/-- A concrete 800×600 source file whose media-service calls all succeed. -/
def demofile : SrcFile :=
  { content := [7, 7, 7], width := 800, height := 600, probeOk := true
    hasVideoStream := true, transcodeOk := true, imageOk := true }

/-- `democfg` with image resizing disabled. -/
def cfgNoResize : Config :=
  { democfg with image := { democfg.image with enableResize := false } }

/-- A source file whose metadata probe fails (e.g. a corrupt video). -/
def demoBadProbe : SrcFile :=
  { demofile with probeOk := false }

/-- A source file whose image transform fails mid-pipeline. -/
def demoBadImage : SrcFile :=
  { demofile with imageOk := false }

/-- A 1920×1080 source file, larger than `democfg`'s video limits. -/
def demoBig : SrcFile :=
  { demofile with width := 1920, height := 1080 }

/-! ## Helper lemmas -/

/-- A raw event applies no blur. -/
theorem Event.blurOf_of_isRaw {ev : Event} (h : ev.isRaw = true) :
    ev.blurOf = none := by
  cases ev <;> simp_all [Event.isRaw, Event.blurOf]

/-- The events of one entry are among the events of any list containing it
(raw copy). -/
theorem copyEntryDirectly_subset {s t : String} {e : FsEntry}
    {l : List FsEntry} (he : e ∈ l) :
    ∀ ev ∈ copyEntryDirectly s t e, ev ∈ copyFolderContentsDirectly s t l := by
  induction l with
  | nil => cases he
  | cons e' rest ih =>
    intro ev hev
    rw [copyFolderContentsDirectly]
    rcases List.mem_cons.mp he with rfl | he'
    · exact List.mem_append_left _ hev
    · exact List.mem_append_right _ (ih he' ev hev)

/-- The events of one entry are among the events of any list containing it
(main walker). -/
theorem walkEntry_subset {config : Config} {s t : String} {b pb : Bool}
    {e : FsEntry} {l : List FsEntry} (he : e ∈ l) :
    ∀ ev ∈ walkEntry config s t b pb e, ev ∈ walk config s t b pb l := by
  induction l with
  | nil => cases he
  | cons e' rest ih =>
    intro ev hev
    rw [walk]
    rcases List.mem_cons.mp he with rfl | he'
    · exact List.mem_append_left _ hev
    · exact List.mem_append_right _ (ih he' ev hev)

mutual

/-- Every event of the raw subtree copy of one entry is raw. -/
theorem copyEntryDirectly_raw (s t : String) (e : FsEntry) :
    ∀ ev ∈ copyEntryDirectly s t e, ev.isRaw = true := by
  cases e with
  | file name f =>
    intro ev hev
    rw [copyEntryDirectly] at hev
    split at hev
    · cases hev
    · simp only [List.mem_singleton] at hev
      subst hev
      rfl
  | dir name sub =>
    intro ev hev
    rw [copyEntryDirectly] at hev
    split at hev
    · cases hev
    · rcases List.mem_cons.mp hev with rfl | hev
      · rfl
      · exact copyFolderContentsDirectly_raw _ _ sub ev hev

/-- Every event of the raw subtree copy of an entry list is raw. -/
theorem copyFolderContentsDirectly_raw (s t : String) (l : List FsEntry) :
    ∀ ev ∈ copyFolderContentsDirectly s t l, ev.isRaw = true := by
  match l with
  | [] =>
    intro ev hev
    rw [copyFolderContentsDirectly] at hev
    cases hev
  | e :: rest =>
    intro ev hev
    rw [copyFolderContentsDirectly] at hev
    rcases List.mem_append.mp hev with hev | hev
    · exact copyEntryDirectly_raw s t e ev hev
    · exact copyFolderContentsDirectly_raw s t rest ev hev

end

/-- Every non-hidden file of a subtree is emitted as a byte-identical copy by
the raw subtree copy, at its mirrored relative path. -/
theorem copyFolderContentsDirectly_copies {l : List FsEntry} {rel : String}
    {f : SrcFile} (h : FileAt l rel f) :
    ∀ s t : String, Event.copyFile (s ++ rel) (t ++ rel) f.content ∈
      copyFolderContentsDirectly s t l := by
  induction h with
  | here hmem hname =>
    intro s t
    apply copyEntryDirectly_subset hmem
    rw [copyEntryDirectly]
    simp [hname, ← String.append_assoc]
  | there hmem hname _ ih =>
    intro s t
    rename_i name rel₀ sub₀ f₀ _
    apply copyEntryDirectly_subset hmem
    rw [copyEntryDirectly]
    simp only [hname, Bool.false_eq_true, if_false, List.mem_cons]
    right
    have e1 : s ++ ("/" ++ name ++ rel₀) = (s ++ "/" ++ name) ++ rel₀ := by
      simp [String.append_assoc]
    have e2 : t ++ ("/" ++ name ++ rel₀) = (t ++ "/" ++ name) ++ rel₀ := by
      simp [String.append_assoc]
    rw [e1, e2]
    exact ih _ _

/-- `processVideo` never blurs. -/
theorem processVideo_blurOf (config : Config) (i o : String) (f : SrcFile) :
    ∀ ev ∈ processVideo config i o f, ev.blurOf = none := by
  intro ev hev
  rw [processVideo] at hev
  split at hev <;>
    [skip; split at hev <;>
      [skip; split at hev <;>
        [skip; (simp only at hev; split at hev)]]] <;>
  simp only [List.mem_singleton] at hev <;> subst hev <;> rfl

mutual

/-- With the parent's blur permission withdrawn, no event of the subtree walk
applies blur: the walker recomputes
`applyBlur && parentBlurAllowed && childRule`, which is `false` whenever
`parentBlurAllowed` is, so no descendant folder's or file's own rule can
re-enable blur.  (Single-entry half of the mutual induction.) -/
theorem walkEntry_blur_off (config : Config) (s t : String) (b : Bool)
    (e : FsEntry) :
    ∀ ev ∈ walkEntry config s t b false e, ev.blurOf = none := by
  cases e with
  | file name f =>
    intro ev hev
    rw [walkEntry] at hev
    simp only at hev
    repeat' split at hev
    all_goals
      first
      | exact absurd hev (List.not_mem_nil ev)
      | exact processVideo_blurOf config _ _ f ev hev
      | (simp only [List.mem_singleton] at hev; subst hev;
         simp_all [Event.blurOf])
  | dir name sub =>
    intro ev hev
    rw [walkEntry] at hev
    simp only at hev
    repeat' split at hev
    all_goals
      first
      | exact absurd hev (List.not_mem_nil ev)
      | (rcases List.mem_cons.mp hev with rfl | hev'
         · rfl
         · first
           | exact Event.blurOf_of_isRaw
               (copyFolderContentsDirectly_raw _ _ sub ev hev')
           | (simp only [Bool.and_false, Bool.false_and] at hev'
              exact walk_blur_off config _ _ b sub ev hev'))

/-- With the parent's blur permission withdrawn, no event of the walk of an
entry list applies blur.  (List half of the mutual induction.) -/
theorem walk_blur_off (config : Config) (s t : String) (b : Bool)
    (l : List FsEntry) :
    ∀ ev ∈ walk config s t b false l, ev.blurOf = none := by
  match l with
  | [] =>
    intro ev hev
    rw [walk] at hev
    cases hev
  | e :: rest =>
    intro ev hev
    rw [walk] at hev
    rcases List.mem_append.mp hev with hev | hev
    · exact walkEntry_blur_off config s t b e ev hev
    · exact walk_blur_off config s t b rest ev hev

end

mutual

/-- Image-only walker (`src/optimize.js`) analogue of `walkEntry_blur_off`:
with the parent's blur permission withdrawn, no event of the subtree walk
applies blur, since the walker recomputes
`applyBlur && parentBlurAllowed && childRule` at every node.
(Single-entry half of the mutual induction.) -/
theorem walkEntryJs_blur_off (config : Config) (s t : String) (b : Bool)
    (e : FsEntry) :
    ∀ ev ∈ OptimizeJs.walkEntry config s t b false e, ev.blurOf = none := by
  cases e with
  | file name f =>
    intro ev hev
    rw [OptimizeJs.walkEntry] at hev
    simp only at hev
    repeat' split at hev
    all_goals
      first
      | exact absurd hev (List.not_mem_nil ev)
      | (simp only [List.mem_singleton] at hev; subst hev;
         simp_all [Event.blurOf])
  | dir name sub =>
    intro ev hev
    rw [OptimizeJs.walkEntry] at hev
    simp only at hev
    repeat' split at hev
    all_goals
      first
      | exact absurd hev (List.not_mem_nil ev)
      | (rcases List.mem_cons.mp hev with rfl | hev'
         · rfl
         · simp only [Bool.and_false, Bool.false_and] at hev'
           exact walkJs_blur_off config _ _ b sub ev hev')

/-- Image-only walker analogue of `walk_blur_off`.  (List half of the
mutual induction.) -/
theorem walkJs_blur_off (config : Config) (s t : String) (b : Bool)
    (l : List FsEntry) :
    ∀ ev ∈ OptimizeJs.walk config s t b false l, ev.blurOf = none := by
  match l with
  | [] =>
    intro ev hev
    rw [OptimizeJs.walk] at hev
    cases hev
  | e :: rest =>
    intro ev hev
    rw [OptimizeJs.walk] at hev
    rcases List.mem_append.mp hev with hev | hev
    · exact walkEntryJs_blur_off config s t b e ev hev
    · exact walkJs_blur_off config s t b rest ev hev

end

/-- Every event of `processVideo` is a byte-identical copy or a transcode. -/
theorem processVideo_shape (config : Config) (i o : String) (f : SrcFile) :
    ∀ ev ∈ processVideo config i o f,
      ev.isRaw = true ∨
        ∃ dst c sz crf br, ev = Event.transcode dst c sz crf br := by
  intro ev hev
  rw [processVideo] at hev
  split at hev <;>
    [skip; split at hev <;>
      [skip; split at hev <;>
        [skip; (simp only at hev; split at hev)]]] <;>
  simp only [List.mem_singleton] at hev <;> subst hev
  · exact Or.inl rfl
  · exact Or.inl rfl
  · exact Or.inl rfl
  · exact Or.inr ⟨_, _, _, _, _, rfl⟩
  · exact Or.inl rfl

/-! ## The claims -/

/-- **C1** (amended).  In the video-capable walker (`part_000`), a directory
entry failing the folder-process policy gets its mirrored output directory
created and its whole subtree raw-copied: every event is a `mkdirp` or a
byte-identical copy (no resize, recompression, blur, or transcode anywhere
in the subtree, regardless of nested folder/file rules), and every non-hidden
file of the subtree is emitted byte-identical at its mirrored path.  In the
image-only walker (`src/optimize.js`, lines 156-161) a directory failing the
policy is instead skipped outright: no output directory and no copy. -/
theorem C1_excluded_folder_raw_copy (config : Config) (s t name : String)
    (sub : List FsEntry) (b pb : Bool)
    (hname : startsWithDot name = false)
    (h : shouldProcessFolder config (s ++ "/" ++ name) = false) :
    walkEntry config s t b pb (.dir name sub) =
      Event.mkdirp (t ++ "/" ++ name) ::
        copyFolderContentsDirectly (s ++ "/" ++ name) (t ++ "/" ++ name) sub ∧
    (∀ ev ∈ walkEntry config s t b pb (.dir name sub), ev.isRaw = true) ∧
    (∀ rel f, FileAt sub rel f →
      Event.copyFile (s ++ "/" ++ name ++ rel) (t ++ "/" ++ name ++ rel)
          f.content ∈ walkEntry config s t b pb (.dir name sub)) ∧
    OptimizeJs.walkEntry config s t b pb (.dir name sub) = [] := by
  have heq : walkEntry config s t b pb (.dir name sub) =
      Event.mkdirp (t ++ "/" ++ name) ::
        copyFolderContentsDirectly (s ++ "/" ++ name) (t ++ "/" ++ name)
          sub := by
    rw [walkEntry]
    simp [hname, h]
  refine ⟨heq, ?_, ?_, ?_⟩
  · intro ev hev
    rw [heq] at hev
    rcases List.mem_cons.mp hev with rfl | hev
    · rfl
    · exact copyFolderContentsDirectly_raw _ _ sub ev hev
  · intro rel f hf
    rw [heq]
    exact List.mem_cons_of_mem _ (copyFolderContentsDirectly_copies hf _ _)
  · rw [OptimizeJs.walkEntry]
    simp [hname, h]

/-- Witness for C1: the excluded folder `raw` of `democfg`, holding one
non-hidden file, is mkdir'd and raw-copied by the `part_000` walker and
skipped by the `optimize.js` walker. -/
theorem C1_excluded_folder_raw_copy_witness :
    walkEntry democfg "assets" "dist/assets" true true
        (.dir "raw" [FsEntry.file "photo.jpg" demofile]) =
      Event.mkdirp ("dist/assets" ++ "/" ++ "raw") ::
        copyFolderContentsDirectly ("assets" ++ "/" ++ "raw")
          ("dist/assets" ++ "/" ++ "raw")
          [FsEntry.file "photo.jpg" demofile] ∧
    OptimizeJs.walkEntry democfg "assets" "dist/assets" true true
        (.dir "raw" [FsEntry.file "photo.jpg" demofile]) = [] :=
  let h := C1_excluded_folder_raw_copy democfg "assets" "dist/assets" "raw"
    [FsEntry.file "photo.jpg" demofile] true true (by decide) (by decide)
  ⟨h.1, h.2.2.2⟩

/-- Counterexample for C1 as stated: under `democfg` the folder `raw` fails
the folder-process policy and its subtree holds the non-hidden file
`photo.jpg`, yet the `src/optimize.js` walk — one of the two walks the claim
covers — emits no events at all for the directory entry: it neither creates
the mirrored output directory nor copies any file of the subtree. -/
theorem C1_full_walk_counterexample :
    shouldProcessFolder democfg ("assets" ++ "/" ++ "raw") = false ∧
    FileAt [FsEntry.file "photo.jpg" demofile] ("/" ++ "photo.jpg")
      demofile ∧
    OptimizeJs.walkEntry democfg "assets" "dist/assets" true true
      (.dir "raw" [FsEntry.file "photo.jpg" demofile]) = [] := by
  refine ⟨by decide, FileAt.here (List.mem_singleton.mpr rfl) (by decide), ?_⟩
  rw [OptimizeJs.walkEntry]
  decide

/-- **C2** (amended).  For a processable image whose transform succeeds:
in the video-capable walker (`part_000`, line 326) the written image is
resized to `image.maxWidth` iff `image.enableResize` is true and the probed
width is ≥ `image.maxWidth` (inclusive threshold), keeping the original
dimensions otherwise; in the image-only walker (`src/optimize.js`, line 197)
the resize is applied iff width ≥ `image.maxWidth`, with no
`image.enableResize` guard at all. -/
theorem C2_image_resize_condition (config : Config) (s t name : String)
    (f : SrcFile) (b pb : Bool)
    (hname : startsWithDot name = false)
    (hfile : shouldProcessFile config (s ++ "/" ++ name) = true)
    (htype : getFileType config (s ++ "/" ++ name) = FileType.processable)
    (htypeJs : OptimizeJs.getFileType config (s ++ "/" ++ name) =
      FileType.processable)
    (hok : f.imageOk = true) :
    (∀ ev ∈ walkEntry config s t b pb (.file name f),
      (ev.imageResizeOf = some config.image.maxWidth ↔
        (config.image.enableResize = true ∧
          config.image.maxWidth ≤ f.width)) ∧
      (ev.imageResizeOf = none ↔
        ¬ (config.image.enableResize = true ∧
            config.image.maxWidth ≤ f.width))) ∧
    (∀ ev ∈ OptimizeJs.walkEntry config s t b pb (.file name f),
      (ev.imageResizeOf = some config.image.maxWidth ↔
        config.image.maxWidth ≤ f.width) ∧
      (ev.imageResizeOf = none ↔ ¬ config.image.maxWidth ≤ f.width)) := by
  have heq : walkEntry config s t b pb (.file name f) =
      [Event.optimizeImage (t ++ "/" ++ name)
        (if config.image.enableResize = true ∧ config.image.maxWidth ≤ f.width
         then some config.image.maxWidth else none)
        (if (b && pb && shouldBlurFile config (s ++ "/" ++ name)) = true
         then some config.blur.strength else none)
        config.image.quality] := by
    rw [walkEntry]
    simp [hname, hfile, htype, hok]
  have heqJs : OptimizeJs.walkEntry config s t b pb (.file name f) =
      [Event.optimizeImage (t ++ "/" ++ name)
        (if config.image.maxWidth ≤ f.width
         then some config.image.maxWidth else none)
        (if (b && pb && shouldBlurFile config (s ++ "/" ++ name)) = true
         then some config.blur.strength else none)
        config.image.quality] := by
    rw [OptimizeJs.walkEntry]
    simp [hname, hfile, htypeJs, hok]
  constructor
  · intro ev hev
    rw [heq] at hev
    simp only [List.mem_singleton] at hev
    subst hev
    by_cases hc : config.image.enableResize = true ∧
        config.image.maxWidth ≤ f.width <;>
      simp [Event.imageResizeOf, hc]
  · intro ev hev
    rw [heqJs] at hev
    simp only [List.mem_singleton] at hev
    subst hev
    by_cases hc : config.image.maxWidth ≤ f.width <;>
      simp [Event.imageResizeOf, hc]

/-- Witness for C2: a 800-wide jpg against `democfg` (maxWidth 700). -/
theorem C2_image_resize_condition_witness :
    (∀ ev ∈ walkEntry democfg "assets" "dist/assets" false true
        (.file "pic.jpg" demofile),
      (ev.imageResizeOf = some democfg.image.maxWidth ↔
        (democfg.image.enableResize = true ∧
          democfg.image.maxWidth ≤ demofile.width)) ∧
      (ev.imageResizeOf = none ↔
        ¬ (democfg.image.enableResize = true ∧
            democfg.image.maxWidth ≤ demofile.width))) ∧
    (∀ ev ∈ OptimizeJs.walkEntry democfg "assets" "dist/assets" false true
        (.file "pic.jpg" demofile),
      (ev.imageResizeOf = some democfg.image.maxWidth ↔
        democfg.image.maxWidth ≤ demofile.width) ∧
      (ev.imageResizeOf = none ↔
        ¬ democfg.image.maxWidth ≤ demofile.width)) :=
  C2_image_resize_condition democfg "assets" "dist/assets" "pic.jpg" demofile
    false true (by decide) (by decide) (by decide) (by decide) rfl

/-- Counterexample for C2 as stated: under `cfgNoResize`,
`image.enableResize` is false yet the `src/optimize.js` walk — cited by the
claim — still resizes the 800-wide `pic.jpg` down to `maxWidth` 700 instead
of keeping the original dimensions. -/
theorem C2_enableResize_counterexample :
    cfgNoResize.image.enableResize = false ∧
    cfgNoResize.image.maxWidth ≤ demofile.width ∧
    OptimizeJs.walkEntry cfgNoResize "assets" "dist" false true
        (.file "pic.jpg" demofile) =
      [Event.optimizeImage ("dist" ++ "/" ++ "pic.jpg") (some 700) none
        cfgNoResize.image.quality] := by
  refine ⟨by decide, by decide, ?_⟩
  rw [OptimizeJs.walkEntry]
  decide

/-- **C3** (confirmed).  In both walkers (`part_000` and `src/optimize.js`),
for a processed directory the blur flag passed to the recursive call is
exactly `applyBlur && parentBlurAllowed && shouldBlurFolder`; it can only
switch a true parent off, never a false parent on (monotonically
non-increasing); and once a folder's own blur rule is false, no event
anywhere in its subtree applies blur, whatever the nested folder-level or
file-level blur rules say. -/
theorem C3_blur_propagation (config : Config) (s t name : String)
    (sub : List FsEntry) (applyBlur pb : Bool)
    (hname : startsWithDot name = false)
    (hproc : shouldProcessFolder config (s ++ "/" ++ name) = true) :
    walkEntry config s t applyBlur pb (.dir name sub) =
      Event.mkdirp (t ++ "/" ++ name) ::
        walk config (s ++ "/" ++ name) (t ++ "/" ++ name) applyBlur
          (applyBlur && pb && shouldBlurFolder config (s ++ "/" ++ name))
          sub ∧
    ((applyBlur && pb && shouldBlurFolder config (s ++ "/" ++ name)) = true →
      pb = true) ∧
    (shouldBlurFolder config (s ++ "/" ++ name) = false →
      ∀ ev ∈ walkEntry config s t applyBlur pb (.dir name sub),
        ev.blurOf = none) ∧
    OptimizeJs.walkEntry config s t applyBlur pb (.dir name sub) =
      Event.mkdirp (t ++ "/" ++ name) ::
        OptimizeJs.walk config (s ++ "/" ++ name) (t ++ "/" ++ name)
          applyBlur
          (applyBlur && pb && shouldBlurFolder config (s ++ "/" ++ name))
          sub ∧
    (shouldBlurFolder config (s ++ "/" ++ name) = false →
      ∀ ev ∈ OptimizeJs.walkEntry config s t applyBlur pb (.dir name sub),
        ev.blurOf = none) := by
  have heq : walkEntry config s t applyBlur pb (.dir name sub) =
      Event.mkdirp (t ++ "/" ++ name) ::
        walk config (s ++ "/" ++ name) (t ++ "/" ++ name) applyBlur
          (applyBlur && pb && shouldBlurFolder config (s ++ "/" ++ name))
          sub := by
    rw [walkEntry]
    simp [hname, hproc]
  have heqJs : OptimizeJs.walkEntry config s t applyBlur pb
      (.dir name sub) =
      Event.mkdirp (t ++ "/" ++ name) ::
        OptimizeJs.walk config (s ++ "/" ++ name) (t ++ "/" ++ name)
          applyBlur
          (applyBlur && pb && shouldBlurFolder config (s ++ "/" ++ name))
          sub := by
    rw [OptimizeJs.walkEntry]
    simp [hname, hproc]
  refine ⟨heq, ?_, ?_, heqJs, ?_⟩
  · intro h
    cases pb with
    | false => simp at h
    | true => rfl
  · intro hblur ev hev
    rw [heq] at hev
    rcases List.mem_cons.mp hev with rfl | hev
    · rfl
    · rw [hblur] at hev
      simp only [Bool.and_false] at hev
      exact walk_blur_off config _ _ applyBlur sub ev hev
  · intro hblur ev hev
    rw [heqJs] at hev
    rcases List.mem_cons.mp hev with rfl | hev
    · rfl
    · rw [hblur] at hev
      simp only [Bool.and_false] at hev
      exact walkJs_blur_off config _ _ applyBlur sub ev hev

/-- Witness for C3: the folder `team` is blur-excluded under `democfg`, so
under a `--blur` run its subtree walk applies no blur, in both walkers. -/
theorem C3_blur_propagation_witness :
    walkEntry democfg "assets" "dist/assets" true true
        (.dir "team" [FsEntry.file "ceo.jpg" demofile]) =
      Event.mkdirp ("dist/assets" ++ "/" ++ "team") ::
        walk democfg ("assets" ++ "/" ++ "team")
          ("dist/assets" ++ "/" ++ "team") true
          (true && true &&
            shouldBlurFolder democfg ("assets" ++ "/" ++ "team"))
          [FsEntry.file "ceo.jpg" demofile] ∧
    ((true && true &&
        shouldBlurFolder democfg ("assets" ++ "/" ++ "team")) = true →
      true = true) ∧
    (shouldBlurFolder democfg ("assets" ++ "/" ++ "team") = false →
      ∀ ev ∈ walkEntry democfg "assets" "dist/assets" true true
          (.dir "team" [FsEntry.file "ceo.jpg" demofile]),
        ev.blurOf = none) ∧
    OptimizeJs.walkEntry democfg "assets" "dist/assets" true true
        (.dir "team" [FsEntry.file "ceo.jpg" demofile]) =
      Event.mkdirp ("dist/assets" ++ "/" ++ "team") ::
        OptimizeJs.walk democfg ("assets" ++ "/" ++ "team")
          ("dist/assets" ++ "/" ++ "team") true
          (true && true &&
            shouldBlurFolder democfg ("assets" ++ "/" ++ "team"))
          [FsEntry.file "ceo.jpg" demofile] ∧
    (shouldBlurFolder democfg ("assets" ++ "/" ++ "team") = false →
      ∀ ev ∈ OptimizeJs.walkEntry democfg "assets" "dist/assets" true true
          (.dir "team" [FsEntry.file "ceo.jpg" demofile]),
        ev.blurOf = none) :=
  C3_blur_propagation democfg "assets" "dist/assets" "team"
    [FsEntry.file "ceo.jpg" demofile] true true (by decide) (by decide)

/-- **C4** (confirmed).  `shouldProcessFolder` is an allow-list on the
include list when that list is non-empty, and a deny-list on the exclude
list otherwise.  The predicate compares the basename of its argument; for a
plain folder name `N` (no `/`), `basename N = N`. -/
theorem C4_folder_policy (config : Config) (N : String) :
    shouldProcessFolder config N = true ↔
      (if config.folders.incl ≠ [] then basename N ∈ config.folders.incl
       else basename N ∉ config.folders.excl) := by
  unfold shouldProcessFolder
  by_cases h : config.folders.incl = [] <;> simp [h, List.length_pos]

/-- **C5** (confirmed).  `shouldProcessFile` is true exactly when the name
is not excluded, the lowercased extension is not excluded, and — only then —
a non-empty include list contains the name; with an empty include list and
no exclusion hit, the file is processable.  In particular a name or
extension exclusion wins even when the name is also in the include list. -/
theorem C5_file_policy_exclusion_wins (config : Config) (p : String) :
    shouldProcessFile config p = true ↔
      (basename p ∉ config.files.excl ∧
       toLowerAscii (extname p) ∉ config.extensions.excl ∧
       (config.files.incl ≠ [] → basename p ∈ config.files.incl)) := by
  unfold shouldProcessFile
  by_cases h1 : basename p ∈ config.files.excl <;>
    by_cases h2 : toLowerAscii (extname p) ∈ config.extensions.excl <;>
      by_cases h3 : config.files.incl = [] <;>
        simp [h1, h2, h3, List.length_pos]

/-- **C6** (confirmed).  A video file with `video.enableProcessing` off, a
failed probe, a missing video stream, or a failed transcode produces exactly
one byte-identical copy of the original at the nominal target path, and the
walk of the remaining siblings proceeds unchanged.  (`processVideo` is a
total function into an event list — the embedding of the JS promise that
always resolves, so a video failure can never abort the run or reach the
process exit code.) -/
theorem C6_video_failure_fallback (config : Config) (i o : String)
    (f : SrcFile)
    (h : config.video.enableProcessing = false ∨ f.probeOk = false ∨
      f.hasVideoStream = false ∨ f.transcodeOk = false) :
    processVideo config i o f = [Event.copyFile i o f.content] ∧
    (∀ (s t name : String) (b pb : Bool) (rest : List FsEntry),
      startsWithDot name = false →
      shouldProcessFile config (s ++ "/" ++ name) = true →
      getFileType config (s ++ "/" ++ name) = FileType.video →
      walk config s t b pb (.file name f :: rest) =
        Event.copyFile (s ++ "/" ++ name) (t ++ "/" ++ name) f.content ::
          walk config s t b pb rest) := by
  have hcopy : ∀ i' o' : String,
      processVideo config i' o' f = [Event.copyFile i' o' f.content] := by
    intro i' o'
    rcases h with h | h | h | h <;>
      cases hE : config.video.enableProcessing <;>
        cases hP : f.probeOk <;>
          cases hS : f.hasVideoStream <;>
            cases hT : f.transcodeOk <;>
              simp_all [processVideo]
  refine ⟨hcopy i o, ?_⟩
  intro s t name b pb rest hname hfile htype
  rw [walk, walkEntry]
  simp [hname, hfile, htype, hcopy]

/-- Witness for C6: a corrupt `clip.webm` (probe fails) under `democfg` is
copied byte-identically to the nominal target path. -/
theorem C6_video_failure_fallback_witness :
    processVideo democfg ("assets" ++ "/" ++ "clip.webm")
        ("dist/assets" ++ "/" ++ "clip.webm") demoBadProbe =
      [Event.copyFile ("assets" ++ "/" ++ "clip.webm")
        ("dist/assets" ++ "/" ++ "clip.webm") demoBadProbe.content] :=
  (C6_video_failure_fallback democfg ("assets" ++ "/" ++ "clip.webm")
    ("dist/assets" ++ "/" ++ "clip.webm") demoBadProbe
    (Or.inr (Or.inl rfl))).1

/-- **C7** (confirmed).  In both walkers (`part_000` and `src/optimize.js`),
a processable image whose transform fails yields exactly one logged error
event for that file — an event that writes no output file, so no fallback
copy — and the walk continues with the remaining siblings unchanged. -/
theorem C7_image_error_skip (config : Config) (s t name : String)
    (f : SrcFile) (b pb : Bool) (rest : List FsEntry)
    (hname : startsWithDot name = false)
    (hfile : shouldProcessFile config (s ++ "/" ++ name) = true)
    (htype : getFileType config (s ++ "/" ++ name) = FileType.processable)
    (htypeJs : OptimizeJs.getFileType config (s ++ "/" ++ name) =
      FileType.processable)
    (hfail : f.imageOk = false) :
    walkEntry config s t b pb (.file name f) =
      [Event.imageError (s ++ "/" ++ name)] ∧
    (∀ ev ∈ walkEntry config s t b pb (.file name f),
      ev.writesFile = false) ∧
    walk config s t b pb (.file name f :: rest) =
      Event.imageError (s ++ "/" ++ name) :: walk config s t b pb rest ∧
    OptimizeJs.walkEntry config s t b pb (.file name f) =
      [Event.imageError (s ++ "/" ++ name)] ∧
    (∀ ev ∈ OptimizeJs.walkEntry config s t b pb (.file name f),
      ev.writesFile = false) ∧
    OptimizeJs.walk config s t b pb (.file name f :: rest) =
      Event.imageError (s ++ "/" ++ name) ::
        OptimizeJs.walk config s t b pb rest := by
  have heq : walkEntry config s t b pb (.file name f) =
      [Event.imageError (s ++ "/" ++ name)] := by
    rw [walkEntry]
    simp [hname, hfile, htype, hfail]
  have heqJs : OptimizeJs.walkEntry config s t b pb (.file name f) =
      [Event.imageError (s ++ "/" ++ name)] := by
    rw [OptimizeJs.walkEntry]
    simp [hname, hfile, htypeJs, hfail]
  refine ⟨heq, ?_, ?_, heqJs, ?_, ?_⟩
  · intro ev hev
    rw [heq] at hev
    simp only [List.mem_singleton] at hev
    subst hev
    rfl
  · rw [walk, heq]
    rfl
  · intro ev hev
    rw [heqJs] at hev
    simp only [List.mem_singleton] at hev
    subst hev
    rfl
  · rw [OptimizeJs.walk, heqJs]
    rfl

/-- Witness for C7: a jpg whose sharp pipeline fails under `democfg` yields
only a logged error, which writes no file, in both walkers. -/
theorem C7_image_error_skip_witness :
    walkEntry democfg "assets" "dist/assets" true true
        (.file "pic.jpg" demoBadImage) =
      [Event.imageError ("assets" ++ "/" ++ "pic.jpg")] ∧
    (∀ ev ∈ walkEntry democfg "assets" "dist/assets" true true
        (.file "pic.jpg" demoBadImage),
      ev.writesFile = false) ∧
    walk democfg "assets" "dist/assets" true true
        (.file "pic.jpg" demoBadImage :: []) =
      Event.imageError ("assets" ++ "/" ++ "pic.jpg") ::
        walk democfg "assets" "dist/assets" true true [] ∧
    OptimizeJs.walkEntry democfg "assets" "dist/assets" true true
        (.file "pic.jpg" demoBadImage) =
      [Event.imageError ("assets" ++ "/" ++ "pic.jpg")] ∧
    (∀ ev ∈ OptimizeJs.walkEntry democfg "assets" "dist/assets" true true
        (.file "pic.jpg" demoBadImage),
      ev.writesFile = false) ∧
    OptimizeJs.walk democfg "assets" "dist/assets" true true
        (.file "pic.jpg" demoBadImage :: []) =
      Event.imageError ("assets" ++ "/" ++ "pic.jpg") ::
        OptimizeJs.walk democfg "assets" "dist/assets" true true [] :=
  C7_image_error_skip democfg "assets" "dist/assets" "pic.jpg"
    demoBadImage true true [] (by decide) (by decide) (by decide)
    (by decide) rfl

/-- **C8** (confirmed).  A fully processed video is transcoded with a target
size of `maxWidth×maxHeight` iff `video.enableResize` is true and either the
source width strictly exceeds `video.maxWidth` or the source height strictly
exceeds `video.maxHeight`; otherwise the transcode carries no size (original
dimensions kept).  The comparison is strict, in contrast with the inclusive
image threshold of C2. -/
theorem C8_video_resize_strict_threshold (config : Config) (i o : String)
    (f : SrcFile)
    (hE : config.video.enableProcessing = true) (hP : f.probeOk = true)
    (hS : f.hasVideoStream = true) (hT : f.transcodeOk = true) :
    ∃ dst c sz br, processVideo config i o f =
      [Event.transcode dst c sz config.video.quality.crf br] ∧
      (sz = some (config.video.maxWidth, config.video.maxHeight) ↔
        (config.video.enableResize = true ∧
          (config.video.maxWidth < f.width ∨
            config.video.maxHeight < f.height))) ∧
      (sz = none ↔
        ¬ (config.video.enableResize = true ∧
            (config.video.maxWidth < f.width ∨
              config.video.maxHeight < f.height))) := by
  rw [processVideo]
  simp only [hE, hP, hS, hT, Bool.not_true, Bool.false_eq_true, if_false,
    ite_false, ite_true]
  refine ⟨_, _, _, _, rfl, ?_, ?_⟩ <;>
    by_cases hc : config.video.enableResize = true ∧
        (config.video.maxWidth < f.width ∨
          config.video.maxHeight < f.height) <;>
      simp [hc]

/-- Witness for C8: a 1920×1080 `clip.webm` under `democfg` (limits
1280×720). -/
theorem C8_video_resize_strict_threshold_witness :
    ∃ dst c sz br, processVideo democfg ("assets" ++ "/" ++ "clip.webm")
        ("dist/assets" ++ "/" ++ "clip.webm") demoBig =
      [Event.transcode dst c sz democfg.video.quality.crf br] ∧
      (sz = some (democfg.video.maxWidth, democfg.video.maxHeight) ↔
        (democfg.video.enableResize = true ∧
          (democfg.video.maxWidth < demoBig.width ∨
            democfg.video.maxHeight < demoBig.height))) ∧
      (sz = none ↔
        ¬ (democfg.video.enableResize = true ∧
            (democfg.video.maxWidth < demoBig.width ∨
              democfg.video.maxHeight < demoBig.height))) :=
  C8_video_resize_strict_threshold democfg ("assets" ++ "/" ++ "clip.webm")
    ("dist/assets" ++ "/" ++ "clip.webm") demoBig rfl rfl rfl rfl

/-- **C9** (confirmed).  All four policy predicates factor through
`basename`: two paths with the same final segment get identical decisions
from each predicate under any configuration, so the directory prefix never
influences a policy decision. -/
theorem C9_policy_depends_on_basename_only (config : Config) (p q : String)
    (h : basename p = basename q) :
    shouldProcessFolder config p = shouldProcessFolder config q ∧
    shouldProcessFile config p = shouldProcessFile config q ∧
    shouldBlurFolder config p = shouldBlurFolder config q ∧
    shouldBlurFile config p = shouldBlurFile config q := by
  have he : extname p = extname q := by
    unfold extname
    rw [h]
  unfold shouldProcessFolder shouldProcessFile shouldBlurFolder shouldBlurFile
  rw [h, he]
  exact ⟨rfl, rfl, rfl, rfl⟩

/-- Witness for C9: the same basename `team` under two different directory
prefixes gets the same four decisions. -/
theorem C9_policy_depends_on_basename_only_witness :
    shouldProcessFolder democfg "assets/media/team" =
        shouldProcessFolder democfg "other/team" ∧
    shouldProcessFile democfg "assets/media/team" =
        shouldProcessFile democfg "other/team" ∧
    shouldBlurFolder democfg "assets/media/team" =
        shouldBlurFolder democfg "other/team" ∧
    shouldBlurFile democfg "assets/media/team" =
        shouldBlurFile democfg "other/team" :=
  C9_policy_depends_on_basename_only democfg "assets/media/team" "other/team"
    (by decide)

/-- **C10** (confirmed).  A file not classified processable is never
blurred, under any blur flag, parent permission, and configuration: in the
video-capable walker its events are byte-identical copies or transcodes
(none carrying blur), and in the image-only walker they are byte-identical
copies only. -/
theorem C10_blur_only_processable_images (config : Config)
    (s t name : String) (f : SrcFile) (b pb : Bool)
    (htype : getFileType config (s ++ "/" ++ name) ≠ FileType.processable)
    (htypeJs : OptimizeJs.getFileType config (s ++ "/" ++ name) ≠
      FileType.processable) :
    (∀ ev ∈ walkEntry config s t b pb (.file name f),
      ev.blurOf = none ∧
        (ev.isRaw = true ∨
          ∃ dst c sz crf br, ev = Event.transcode dst c sz crf br)) ∧
    (∀ ev ∈ OptimizeJs.walkEntry config s t b pb (.file name f),
      ev.blurOf = none ∧ ev.isRaw = true) := by
  constructor
  · intro ev hev
    rw [walkEntry] at hev
    simp only at hev
    repeat' split at hev
    all_goals
      first
      | exact absurd hev (List.not_mem_nil ev)
      | exact ⟨processVideo_blurOf config _ _ f ev hev,
          processVideo_shape config _ _ f ev hev⟩
      | (simp only [List.mem_singleton] at hev; subst hev;
         first
         | exact ⟨rfl, Or.inl rfl⟩
         | simp_all)
  · intro ev hev
    rw [OptimizeJs.walkEntry] at hev
    simp only at hev
    repeat' split at hev
    all_goals
      first
      | exact absurd hev (List.not_mem_nil ev)
      | (simp only [List.mem_singleton] at hev; subst hev;
         first
         | exact ⟨rfl, rfl⟩
         | simp_all)

/-- Witness for C10: a copy-only `logo.svg` under a `--blur` run is copied
with no blur by both walkers. -/
theorem C10_blur_only_processable_images_witness :
    (∀ ev ∈ walkEntry democfg "assets" "dist/assets" true true
        (.file "logo.svg" demofile),
      ev.blurOf = none ∧
        (ev.isRaw = true ∨
          ∃ dst c sz crf br, ev = Event.transcode dst c sz crf br)) ∧
    (∀ ev ∈ OptimizeJs.walkEntry democfg "assets" "dist/assets" true true
        (.file "logo.svg" demofile),
      ev.blurOf = none ∧ ev.isRaw = true) :=
  C10_blur_only_processable_images democfg "assets" "dist/assets" "logo.svg"
    demofile true true (by decide) (by decide)

end Optimizer
